import Mathlib

/-!
Shallow embedding of the `qdrant-langchain-agent` repository: the client
operations of `src/qdrant_agent/client.py`, the `create_collection` agent
tool of `src/qdrant_agent/agent.py`, the ingestion loop of
`src/qdrant_agent/cli.py`, and the configuration of
`src/qdrant_agent/config.py`.  External services (the Qdrant backend and
the embedding provider) are modelled as state-passing primitives with an
explicit fault schedule, so that error propagation and the network-call
trace of each operation can be stated and proved.
-/

namespace QdrantAgent

/-- Metadata mapping attached to a document (string keys to string values). -/
abbrev Meta := List (String × String)

/-- A stored point: generated id, text payload, metadata. -/
structure Point where
  id : Nat
  text : String
  meta : Meta
deriving Repr, DecidableEq

/-- A backend collection: name, vector dimension, distance metric, stored points. -/
structure Collection where
  name : String
  dim : Nat
  distance : String
  points : List Point
deriving Repr, DecidableEq

/-- Errors raised by the client or surfaced from the external services.
`valueError` models Python's `ValueError`; `inputError` models the spec's
`InputError` class (never raised by the code under `src/`, present so its
absence can be stated); `backendError` is an opaque backend or provider
failure. -/
inductive PyError where
  | valueError (msg : String)
  | inputError (msg : String)
  | backendError (code : Nat)
deriving Repr, DecidableEq

/-- One network call to the vector-store backend or the embedding provider. -/
inductive NetCall where
  | getCollections
  | createCollection (name : String) (dim : Nat) (distance : String)
  | deleteCollection (name : String)
  | getCollection (name : String)
  | embed (texts : List String)
  | upsert (name : String) (count : Nat)
  | query (name : String) (k : Nat)
deriving Repr, DecidableEq

/-- The configuration fields consumed by the modelled operations
(`src/qdrant_agent/config.py`): default embedding dimension and batch size. -/
structure Config where
  embedding_dimension : Nat
  batch_size : Nat
deriving Repr, DecidableEq

/-- Backend state: the collections, a fresh-id counter for generated point
ids, and a fault schedule consumed one entry per primitive network call
(`some e` makes that call fail with `e`; an exhausted schedule never fails). -/
structure Backend where
  collections : List Collection
  nextId : Nat
  faults : List (Option PyError)
deriving Repr, DecidableEq

/-- Consume the next scheduled fault, if any. -/
def takeFault (b : Backend) : Option PyError × Backend :=
  match b.faults with
  | [] => (none, b)
  | f :: rest => (f, { b with faults := rest })

/-- Look a collection up by name. -/
def findCol (cols : List Collection) (name : String) : Option Collection :=
  cols.find? (fun c => c.name == name)

/-- Whether a collection name is present. -/
def containsName (cols : List Collection) (name : String) : Bool :=
  (cols.map Collection.name).contains name

/-- Result of one client operation: the Python return value or raised
exception, the backend state afterwards, and the network calls issued. -/
structure Res (α : Type) where
  out : Except PyError α
  backend : Backend
  calls : List NetCall
deriving Repr

/-- Backend primitive: `client.get_collections()`. -/
def primGetCollections (b : Backend) : Res (List String) :=
  match takeFault b with
  | (some e, b1) => ⟨.error e, b1, [.getCollections]⟩
  | (none, b1) => ⟨.ok (b1.collections.map Collection.name), b1, [.getCollections]⟩

/-- Backend primitive: `client.create_collection(name, VectorParams(size, distance))`. -/
def primCreateCollection (name : String) (dim : Nat) (distance : String)
    (b : Backend) : Res Unit :=
  match takeFault b with
  | (some e, b1) => ⟨.error e, b1, [.createCollection name dim distance]⟩
  | (none, b1) =>
      ⟨.ok (), { b1 with collections := b1.collections ++ [⟨name, dim, distance, []⟩] },
        [.createCollection name dim distance]⟩

/-- Backend primitive: `client.delete_collection(name)`. -/
def primDeleteCollection (name : String) (b : Backend) : Res Unit :=
  match takeFault b with
  | (some e, b1) => ⟨.error e, b1, [.deleteCollection name]⟩
  | (none, b1) =>
      ⟨.ok (), { b1 with collections := b1.collections.filter (fun c => !(c.name == name)) },
        [.deleteCollection name]⟩

/-- Backend primitive: `client.get_collection(name)`. -/
def primGetCollection (name : String) (b : Backend) : Res Collection :=
  match takeFault b with
  | (some e, b1) => ⟨.error e, b1, [.getCollection name]⟩
  | (none, b1) =>
      match findCol b1.collections name with
      | some c => ⟨.ok c, b1, [.getCollection name]⟩
      | none => ⟨.error (.backendError 404), b1, [.getCollection name]⟩

/-- Append freshly built points to the named collection. -/
def updPoints (name : String) (pts : List Point) (cols : List Collection) :
    List Collection :=
  cols.map (fun c => if c.name == name then { c with points := c.points ++ pts } else c)

/-- Build the points for one `add_texts` call: ids are consecutive from
`startId`; each text is paired with the metadata at the same index, or with
an empty mapping when none is provided at that index. -/
def mkPoints (startId : Nat) (texts : List String) (metadatas : Option (List Meta)) :
    List Point :=
  (List.range texts.length).map
    (fun i => ⟨startId + i, texts.getD i "", (metadatas.getD []).getD i []⟩)

/-- Modelled from the spec: langchain's `Qdrant.add_texts` (third-party code,
not under `src/`).  Per the spec's external contracts (§6, §4.2) it obtains
embeddings for the given texts in one order-preserving provider call and
writes all `(id, vector, text, metadata)` tuples to the collection in one
upsert, returning the freshly generated ids. -/
def primAddTexts (name : String) (texts : List String) (metadatas : Option (List Meta))
    (b : Backend) : Res (List Nat) :=
  match takeFault b with
  | (some e, b1) => ⟨.error e, b1, [.embed texts]⟩
  | (none, b1) =>
      match takeFault b1 with
      | (some e, b2) => ⟨.error e, b2, [.embed texts, .upsert name texts.length]⟩
      | (none, b2) =>
          let ids := (List.range texts.length).map (fun i => b2.nextId + i)
          ⟨.ok ids,
            { b2 with
                collections := updPoints name (mkPoints b2.nextId texts metadatas) b2.collections,
                nextId := b2.nextId + texts.length },
            [.embed texts, .upsert name texts.length]⟩

/-- Modelled from the spec: the backend's similarity score for a stored point
against a query (§6: the backend returns matches with scores).  The concrete
function is an arbitrary deterministic oracle; the claims constrain only
match count, order preservation and score pass-through, never score values. -/
def matchScore (queryText : String) (p : Point) : Int :=
  (queryText.length : Int) - (p.text.length : Int)

/-- Modelled from the spec: langchain's `similarity_search_with_score`
(third-party code, not under `src/`).  Per the spec (§4.4, §6) it embeds the
query in one provider call and asks the backend for the `k` nearest points,
receiving at most `min k (stored points)` ranked matches with their scores. -/
def primQuery (name : String) (queryText : String) (k : Nat) (b : Backend) :
    Res (List (Point × Int)) :=
  match takeFault b with
  | (some e, b1) => ⟨.error e, b1, [.embed [queryText]]⟩
  | (none, b1) =>
      match takeFault b1 with
      | (some e, b2) => ⟨.error e, b2, [.embed [queryText], .query name k]⟩
      | (none, b2) =>
          match findCol b2.collections name with
          | none => ⟨.error (.backendError 404), b2, [.embed [queryText], .query name k]⟩
          | some c =>
              ⟨.ok ((c.points.map (fun p => (p, matchScore queryText p))).take k), b2,
                [.embed [queryText], .query name k]⟩

/-- Embedding of `QdrantAgentClient.list_collections`
(`src/qdrant_agent/client.py` lines 54-65): one backend call; any failure is
logged and re-raised unmodified. -/
def list_collections (b : Backend) : Res (List String) :=
  primGetCollections b

/-- Embedding of `QdrantAgentClient.collection_exists` (lines 67-81):
membership check of the name against `list_collections`; failures re-raised. -/
def collection_exists (name : String) (b : Backend) : Res Bool :=
  let r := list_collections b
  match r.out with
  | .ok cols => ⟨.ok (cols.contains name), r.backend, r.calls⟩
  | .error e => ⟨.error e, r.backend, r.calls⟩

/-- Python `x or d` on an optional integer: `None` and `0` are falsy, so both
fall back to the default `d`. -/
def pyOrNat (x : Option Nat) (d : Nat) : Nat :=
  match x with
  | none => d
  | some v => if v = 0 then d else v

/-- Embedding of `QdrantAgentClient.create_collection` (lines 83-115): soft
false when the name already exists, otherwise one backend create call with
`dimension or config.embedding_dimension`; failures re-raised. -/
def create_collection (cfg : Config) (name : String) (dimension : Option Nat)
    (distance : String) (b : Backend) : Res Bool :=
  let r := collection_exists name b
  match r.out with
  | .error e => ⟨.error e, r.backend, r.calls⟩
  | .ok true => ⟨.ok false, r.backend, r.calls⟩
  | .ok false =>
      let r2 := primCreateCollection name (pyOrNat dimension cfg.embedding_dimension)
        distance r.backend
      match r2.out with
      | .ok _ => ⟨.ok true, r2.backend, r.calls ++ r2.calls⟩
      | .error e => ⟨.error e, r2.backend, r.calls ++ r2.calls⟩

/-- Embedding of `QdrantAgentClient.delete_collection` (lines 117-136): soft
false when the name is absent, otherwise one backend delete call; failures
re-raised. -/
def delete_collection (name : String) (b : Backend) : Res Bool :=
  let r := collection_exists name b
  match r.out with
  | .error e => ⟨.error e, r.backend, r.calls⟩
  | .ok false => ⟨.ok false, r.backend, r.calls⟩
  | .ok true =>
      let r2 := primDeleteCollection name r.backend
      match r2.out with
      | .ok _ => ⟨.ok true, r2.backend, r.calls ++ r2.calls⟩
      | .error e => ⟨.error e, r2.backend, r.calls ++ r2.calls⟩

/-- Embedding of `QdrantAgentClient.get_collection_info` (lines 138-156):
`none` models the empty dict returned when the collection is absent. -/
def get_collection_info (name : String) (b : Backend) : Res (Option Collection) :=
  let r := collection_exists name b
  match r.out with
  | .error e => ⟨.error e, r.backend, r.calls⟩
  | .ok false => ⟨.ok none, r.backend, r.calls⟩
  | .ok true =>
      let r2 := primGetCollection name r.backend
      match r2.out with
      | .ok c => ⟨.ok (some c), r2.backend, r.calls ++ r2.calls⟩
      | .error e => ⟨.error e, r2.backend, r.calls ++ r2.calls⟩

/-- Embedding of `QdrantAgentClient.add_documents` (lines 158-188): an
existence check first, an implicit `create_collection(name)` (default
dimension and distance) when absent, then the langchain `add_texts` call.
No validation of `texts` against `metadatas` is performed; failures
re-raised. -/
def add_documents (cfg : Config) (name : String) (texts : List String)
    (metadatas : Option (List Meta)) (b : Backend) : Res (List Nat) :=
  let r := collection_exists name b
  match r.out with
  | .error e => ⟨.error e, r.backend, r.calls⟩
  | .ok true =>
      let r2 := primAddTexts name texts metadatas r.backend
      ⟨r2.out, r2.backend, r.calls ++ r2.calls⟩
  | .ok false =>
      let rc := create_collection cfg name none "Cosine" r.backend
      match rc.out with
      | .error e => ⟨.error e, rc.backend, r.calls ++ rc.calls⟩
      | .ok _ =>
          let r2 := primAddTexts name texts metadatas rc.backend
          ⟨r2.out, r2.backend, r.calls ++ rc.calls ++ r2.calls⟩

/-- One formatted search result, as built by the loop in
`similarity_search` (lines 218-224): text, metadata and unmodified score. -/
structure SearchResult where
  text : String
  metadata : Meta
  score : Int
deriving Repr, DecidableEq

/-- Embedding of the result-formatting loop of `similarity_search`
(lines 217-226): one `{text, metadata, score}` record per backend match, in
the order received. -/
def format_results (results : List (Point × Int)) : List SearchResult :=
  results.map (fun m => ⟨m.1.text, m.1.meta, m.2⟩)

/-- Embedding of `QdrantAgentClient.similarity_search` (lines 190-229):
raises `ValueError` when the collection is absent, otherwise queries and
formats the backend matches; failures re-raised. -/
def similarity_search (name : String) (queryText : String) (k : Nat)
    (b : Backend) : Res (List SearchResult) :=
  let r := collection_exists name b
  match r.out with
  | .error e => ⟨.error e, r.backend, r.calls⟩
  | .ok false =>
      ⟨.error (.valueError ("Collection " ++ name ++ " does not exist")),
        r.backend, r.calls⟩
  | .ok true =>
      let r2 := primQuery name queryText k r.backend
      match r2.out with
      | .error e => ⟨.error e, r2.backend, r.calls ++ r2.calls⟩
      | .ok ms => ⟨.ok (format_results ms), r2.backend, r.calls ++ r2.calls⟩

/-- Embedding of the `create_collection` tool of `QdrantAgent._setup_tools`
(`src/qdrant_agent/agent.py` lines 62-74): the tool applies
`dimension or config.embedding_dimension` itself and delegates to the
client's `create_collection` with that value. -/
def agent_create_collection (cfg : Config) (name : String)
    (dimension : Option Nat) (b : Backend) : Res Bool :=
  create_collection cfg name (some (pyOrNat dimension cfg.embedding_dimension))
    "Cosine" b

/-- Embedding of the batching loop of `add_documents_cmd`
(`src/qdrant_agent/cli.py` lines 211-221): `for i in range(0, N, B)`, each
iteration passing `texts[i:i+B]` and `metadatas[i:i+B] if metadatas else
None` to the client's `add_documents`, stopping at the first error.  Like
Python's `range`, a zero step raises `ValueError`. -/
def ingestLoop (cfg : Config) (name : String) (B : Nat) (texts : List String)
    (metadatas : Option (List Meta)) (i : Nat) (b : Backend) : Res Nat :=
  if _hz : B = 0 then ⟨.error (.valueError "range() arg 3 must not be zero"), b, []⟩
  else if _hend : texts.length ≤ i then ⟨.ok 0, b, []⟩
  else
    let batchTexts := (texts.drop i).take B
    let batchMetas : Option (List Meta) :=
      match metadatas with
      | none => none
      | some ms => if ms.isEmpty then none else some ((ms.drop i).take B)
    let r := add_documents cfg name batchTexts batchMetas b
    match r.out with
    | .error e => ⟨.error e, r.backend, r.calls⟩
    | .ok ids =>
        let rr := ingestLoop cfg name B texts metadatas (i + B) r.backend
        ⟨(match rr.out with
          | .ok n => .ok (ids.length + n)
          | .error e => .error e), rr.backend, r.calls ++ rr.calls⟩
termination_by texts.length - i
decreasing_by omega

/-- Embedding of `add_documents_cmd` (`src/qdrant_agent/cli.py` lines
138-223), after file parsing: `batch_size = batch_size or config.batch_size`
and the batching loop from index 0. -/
def add_documents_cmd (cfg : Config) (name : String) (batchSize : Option Nat)
    (texts : List String) (metadatas : Option (List Meta)) (b : Backend) : Res Nat :=
  ingestLoop cfg name (pyOrNat batchSize cfg.batch_size) texts metadatas 0 b

/-- The payloads of the embedding-provider calls in a trace, in order. -/
def embedPayloads : List NetCall → List (List String)
  | [] => []
  | .embed ts :: rest => ts :: embedPayloads rest
  | _ :: rest => embedPayloads rest

/-- The sizes of the upsert calls in a trace, in order. -/
def upsertSizes : List NetCall → List Nat
  | [] => []
  | .upsert _ n :: rest => n :: upsertSizes rest
  | _ :: rest => upsertSizes rest

/-- Whether a result is the spec's `InputError`. -/
def isInputErr {α : Type} : Except PyError α → Bool
  | .error (.inputError _) => true
  | _ => false

deriving instance DecidableEq for Except

/-- Unfolding of `collection_exists` on a fault-free backend. -/
lemma collection_exists_spec (name : String) (cols : List Collection) (nid : Nat) :
    collection_exists name ⟨cols, nid, []⟩ =
      ⟨.ok (containsName cols name), ⟨cols, nid, []⟩, [.getCollections]⟩ := by
  simp [collection_exists, list_collections, primGetCollections, takeFault, containsName]

/-- An absent name is not found by `findCol`. -/
lemma findCol_eq_none {cols : List Collection} {n : String}
    (h : containsName cols n = false) : findCol cols n = none := by
  simp [containsName] at h
  simp [findCol, List.find?_eq_none]
  exact h

/-- Appending a collection named `n` behind fresh names makes `findCol` find it. -/
lemma findCol_append_fresh {cols : List Collection} {n : String} (c : Collection)
    (h : containsName cols n = false) (hc : c.name = n) :
    findCol (cols ++ [c]) n = some c := by
  have h0 : findCol cols n = none := findCol_eq_none h
  rw [findCol, List.find?_append]
  rw [findCol] at h0
  simp [h0, List.find?, hc]

/-- The freshly appended name is present afterwards. -/
lemma containsName_append_self (cols : List Collection) (c : Collection) :
    containsName (cols ++ [c]) c.name = true := by
  simp [containsName]

/-- Filtering a name out makes it absent. -/
lemma containsName_filter_ne (cols : List Collection) (n : String) :
    containsName (cols.filter (fun c => !(c.name == n))) n = false := by
  simp [containsName, List.mem_filter]

/-- Unfolding of `create_collection` when the name is absent. -/
lemma create_collection_fresh (cfg : Config) (cols : List Collection) (nid : Nat)
    (name : String) (d : Option Nat) (dist : String)
    (h : containsName cols name = false) :
    create_collection cfg name d dist ⟨cols, nid, []⟩ =
      ⟨.ok true,
        ⟨cols ++ [⟨name, pyOrNat d cfg.embedding_dimension, dist, []⟩], nid, []⟩,
        [.getCollections, .createCollection name (pyOrNat d cfg.embedding_dimension) dist]⟩ := by
  simp [create_collection, collection_exists_spec, h, primCreateCollection, takeFault]

/-- Unfolding of `create_collection` when the name is present. -/
lemma create_collection_existing (cfg : Config) (cols : List Collection) (nid : Nat)
    (name : String) (d : Option Nat) (dist : String)
    (h : containsName cols name = true) :
    create_collection cfg name d dist ⟨cols, nid, []⟩ =
      ⟨.ok false, ⟨cols, nid, []⟩, [.getCollections]⟩ := by
  simp [create_collection, collection_exists_spec, h]

/-- Unfolding of `delete_collection` when the name is absent. -/
lemma delete_collection_absent (cols : List Collection) (nid : Nat) (name : String)
    (h : containsName cols name = false) :
    delete_collection name ⟨cols, nid, []⟩ =
      ⟨.ok false, ⟨cols, nid, []⟩, [.getCollections]⟩ := by
  simp [delete_collection, collection_exists_spec, h]

/-- Unfolding of `delete_collection` when the name is present. -/
lemma delete_collection_present (cols : List Collection) (nid : Nat) (name : String)
    (h : containsName cols name = true) :
    delete_collection name ⟨cols, nid, []⟩ =
      ⟨.ok true, ⟨cols.filter (fun c => !(c.name == name)), nid, []⟩,
        [.getCollections, .deleteCollection name]⟩ := by
  simp [delete_collection, collection_exists_spec, h, primDeleteCollection, takeFault]

/-- C3: on a collection name that does not exist, `similarity_search` raises
the missing-collection error, performs only the existence check, creates
nothing, and in particular never returns an empty result list. -/
theorem similarity_search_absent_raises (cols : List Collection) (nid : Nat)
    (name q : String) (k : Nat) (h : containsName cols name = false) :
    similarity_search name q k ⟨cols, nid, []⟩ =
      ⟨.error (.valueError ("Collection " ++ name ++ " does not exist")),
        ⟨cols, nid, []⟩, [.getCollections]⟩ := by
  simp [similarity_search, collection_exists_spec, h]

theorem similarity_search_absent_raises_witness :
    containsName [⟨"c", 3, "Cosine", []⟩] "x" = false ∧
    similarity_search "x" "q" 5 ⟨[⟨"c", 3, "Cosine", []⟩], 0, []⟩ =
      ⟨.error (.valueError "Collection x does not exist"),
        ⟨[⟨"c", 3, "Cosine", []⟩], 0, []⟩, [.getCollections]⟩ :=
  ⟨by decide, similarity_search_absent_raises [⟨"c", 3, "Cosine", []⟩] 0 "x" "q" 5 (by decide)⟩

/-- C4: creating a fresh collection returns true and makes a subsequent
existence check succeed; recreating the same name returns false, raises
nothing, issues no backend create call, leaves the backend state (hence the
collection dimension) unchanged. -/
theorem create_then_exists_then_recreate (cfg cfg2 : Config) (cols : List Collection)
    (nid : Nat) (name dist dist2 : String) (d d2 : Option Nat)
    (h : containsName cols name = false) :
    (create_collection cfg name d dist ⟨cols, nid, []⟩).out = .ok true ∧
    (collection_exists name
      (create_collection cfg name d dist ⟨cols, nid, []⟩).backend).out = .ok true ∧
    (create_collection cfg2 name d2 dist2
      (create_collection cfg name d dist ⟨cols, nid, []⟩).backend).out = .ok false ∧
    (create_collection cfg2 name d2 dist2
      (create_collection cfg name d dist ⟨cols, nid, []⟩).backend).backend =
      (create_collection cfg name d dist ⟨cols, nid, []⟩).backend ∧
    (create_collection cfg2 name d2 dist2
      (create_collection cfg name d dist ⟨cols, nid, []⟩).backend).calls =
      [.getCollections] ∧
    (findCol (create_collection cfg2 name d2 dist2
        (create_collection cfg name d dist ⟨cols, nid, []⟩).backend).backend.collections
      name).map Collection.dim = some (pyOrNat d cfg.embedding_dimension) := by
  rw [create_collection_fresh cfg cols nid name d dist h]
  have hmem : containsName
      (cols ++ [⟨name, pyOrNat d cfg.embedding_dimension, dist, []⟩]) name = true :=
    containsName_append_self cols ⟨name, pyOrNat d cfg.embedding_dimension, dist, []⟩
  rw [create_collection_existing cfg2 _ nid name d2 dist2 hmem]
  refine ⟨rfl, ?_, rfl, rfl, rfl, ?_⟩
  · rw [collection_exists_spec, hmem]
  · rw [findCol_append_fresh ⟨name, pyOrNat d cfg.embedding_dimension, dist, []⟩ h rfl]
    rfl

theorem create_then_exists_then_recreate_witness :
    containsName [⟨"other", 7, "Dot", []⟩] "docs" = false ∧
    ((create_collection ⟨384, 100⟩ "docs" (some 5) "Cosine"
        ⟨[⟨"other", 7, "Dot", []⟩], 0, []⟩).out = .ok true ∧
      (collection_exists "docs"
        (create_collection ⟨384, 100⟩ "docs" (some 5) "Cosine"
          ⟨[⟨"other", 7, "Dot", []⟩], 0, []⟩).backend).out = .ok true ∧
      (create_collection ⟨256, 50⟩ "docs" (some 9) "Euclid"
        (create_collection ⟨384, 100⟩ "docs" (some 5) "Cosine"
          ⟨[⟨"other", 7, "Dot", []⟩], 0, []⟩).backend).out = .ok false ∧
      (create_collection ⟨256, 50⟩ "docs" (some 9) "Euclid"
        (create_collection ⟨384, 100⟩ "docs" (some 5) "Cosine"
          ⟨[⟨"other", 7, "Dot", []⟩], 0, []⟩).backend).backend =
        (create_collection ⟨384, 100⟩ "docs" (some 5) "Cosine"
          ⟨[⟨"other", 7, "Dot", []⟩], 0, []⟩).backend ∧
      (create_collection ⟨256, 50⟩ "docs" (some 9) "Euclid"
        (create_collection ⟨384, 100⟩ "docs" (some 5) "Cosine"
          ⟨[⟨"other", 7, "Dot", []⟩], 0, []⟩).backend).calls = [.getCollections] ∧
      (findCol (create_collection ⟨256, 50⟩ "docs" (some 9) "Euclid"
          (create_collection ⟨384, 100⟩ "docs" (some 5) "Cosine"
            ⟨[⟨"other", 7, "Dot", []⟩], 0, []⟩).backend).backend.collections
        "docs").map Collection.dim = some (pyOrNat (some 5) 384)) :=
  ⟨by decide, create_then_exists_then_recreate ⟨384, 100⟩ ⟨256, 50⟩
    [⟨"other", 7, "Dot", []⟩] 0 "docs" "Cosine" "Euclid" (some 5) (some 9) (by decide)⟩

/-- C5: deleting an absent collection returns false with no backend delete
call and an unchanged backend; deleting a present collection removes it,
returns true, and a subsequent existence check returns false. -/
theorem delete_soft_false_and_removal (cols : List Collection) (nid : Nat)
    (nameA nameB : String)
    (hA : containsName cols nameA = false) (hB : containsName cols nameB = true) :
    delete_collection nameA ⟨cols, nid, []⟩ =
      ⟨.ok false, ⟨cols, nid, []⟩, [.getCollections]⟩ ∧
    (delete_collection nameB ⟨cols, nid, []⟩).out = .ok true ∧
    (delete_collection nameB ⟨cols, nid, []⟩).backend =
      ⟨cols.filter (fun c => !(c.name == nameB)), nid, []⟩ ∧
    (collection_exists nameB (delete_collection nameB ⟨cols, nid, []⟩).backend).out =
      .ok false := by
  rw [delete_collection_absent cols nid nameA hA,
    delete_collection_present cols nid nameB hB]
  refine ⟨rfl, rfl, rfl, ?_⟩
  rw [collection_exists_spec, containsName_filter_ne]

theorem delete_soft_false_and_removal_witness :
    (containsName [⟨"docs", 3, "Cosine", []⟩] "nope" = false ∧
      containsName [⟨"docs", 3, "Cosine", []⟩] "docs" = true) ∧
    (delete_collection "nope" ⟨[⟨"docs", 3, "Cosine", []⟩], 0, []⟩ =
      ⟨.ok false, ⟨[⟨"docs", 3, "Cosine", []⟩], 0, []⟩, [.getCollections]⟩ ∧
    (delete_collection "docs" ⟨[⟨"docs", 3, "Cosine", []⟩], 0, []⟩).out = .ok true ∧
    (delete_collection "docs" ⟨[⟨"docs", 3, "Cosine", []⟩], 0, []⟩).backend =
      ⟨[⟨"docs", 3, "Cosine", []⟩].filter (fun c => !(c.name == "docs")), 0, []⟩ ∧
    (collection_exists "docs"
      (delete_collection "docs" ⟨[⟨"docs", 3, "Cosine", []⟩], 0, []⟩).backend).out =
      .ok false) :=
  ⟨⟨by decide, by decide⟩, delete_soft_false_and_removal [⟨"docs", 3, "Cosine", []⟩] 0
    "nope" "docs" (by decide) (by decide)⟩

/-- C8: `collection_exists` returns exactly the membership of the name in
the list returned by `list_collections`, issues the same single
`getCollections` backend call as `list_collections`, and no dedicated
existence call. -/
theorem collection_exists_refines_list (cols : List Collection) (nid : Nat)
    (name : String) :
    (collection_exists name ⟨cols, nid, []⟩).out = .ok (containsName cols name) ∧
    (list_collections ⟨cols, nid, []⟩).out = .ok (cols.map Collection.name) ∧
    (collection_exists name ⟨cols, nid, []⟩).calls =
      (list_collections ⟨cols, nid, []⟩).calls ∧
    (list_collections ⟨cols, nid, []⟩).calls = [.getCollections] ∧
    ((collection_exists name ⟨cols, nid, []⟩).out = .ok true ↔
      name ∈ cols.map Collection.name) := by
  rw [collection_exists_spec]
  refine ⟨rfl, rfl, rfl, rfl, ?_⟩
  simp [containsName]

/-- C10: a `dimension` of `None` or `0`, both through the client and the
agent tool wrapper, is coerced by Python truthiness to the configured
default dimension; with a nonzero configured default no call can create a
collection of dimension 0. -/
theorem create_zero_dimension_coerced (cfg : Config) (cols : List Collection)
    (nid : Nat) (name dist : String) (d : Option Nat)
    (h : containsName cols name = false) (hd : cfg.embedding_dimension ≠ 0) :
    (findCol (create_collection cfg name none dist ⟨cols, nid, []⟩).backend.collections
      name).map Collection.dim = some cfg.embedding_dimension ∧
    (findCol (create_collection cfg name (some 0) dist
        ⟨cols, nid, []⟩).backend.collections name).map Collection.dim =
      some cfg.embedding_dimension ∧
    (findCol (agent_create_collection cfg name none
        ⟨cols, nid, []⟩).backend.collections name).map Collection.dim =
      some cfg.embedding_dimension ∧
    (findCol (agent_create_collection cfg name (some 0)
        ⟨cols, nid, []⟩).backend.collections name).map Collection.dim =
      some cfg.embedding_dimension ∧
    (findCol (create_collection cfg name d dist ⟨cols, nid, []⟩).backend.collections
      name).map Collection.dim ≠ some 0 := by
  have hfind : ∀ (dd : Option Nat) (ds : String),
      (findCol (create_collection cfg name dd ds ⟨cols, nid, []⟩).backend.collections
        name).map Collection.dim = some (pyOrNat dd cfg.embedding_dimension) := by
    intro dd ds
    rw [create_collection_fresh cfg cols nid name dd ds h]
    rw [findCol_append_fresh ⟨name, pyOrNat dd cfg.embedding_dimension, ds, []⟩ h rfl]
    rfl
  have hagent : ∀ dd : Option Nat,
      (findCol (agent_create_collection cfg name dd
        ⟨cols, nid, []⟩).backend.collections name).map Collection.dim =
      some (pyOrNat (some (pyOrNat dd cfg.embedding_dimension)) cfg.embedding_dimension) := by
    intro dd
    rw [agent_create_collection]
    exact hfind (some (pyOrNat dd cfg.embedding_dimension)) "Cosine"
  have hnz : ∀ dd : Option Nat, pyOrNat dd cfg.embedding_dimension ≠ 0 := by
    intro dd
    match dd with
    | none => exact hd
    | some v =>
        by_cases hv : v = 0
        · simp [pyOrNat, hv, hd]
        · simp [pyOrNat, hv]
  refine ⟨hfind none dist, hfind (some 0) dist, ?_, ?_, ?_⟩
  · rw [hagent none]
    simp [pyOrNat, hd]
  · rw [hagent (some 0)]
    simp [pyOrNat, hd]
  · rw [hfind d dist]
    intro hcontra
    exact hnz d (by simpa using hcontra)

theorem create_zero_dimension_coerced_witness :
    (containsName [] "docs" = false ∧ (384 : Nat) ≠ 0) ∧
    ((findCol (create_collection ⟨384, 100⟩ "docs" none "Cosine"
        ⟨[], 0, []⟩).backend.collections "docs").map Collection.dim = some 384 ∧
    (findCol (create_collection ⟨384, 100⟩ "docs" (some 0) "Cosine"
        ⟨[], 0, []⟩).backend.collections "docs").map Collection.dim = some 384 ∧
    (findCol (agent_create_collection ⟨384, 100⟩ "docs" none
        ⟨[], 0, []⟩).backend.collections "docs").map Collection.dim = some 384 ∧
    (findCol (agent_create_collection ⟨384, 100⟩ "docs" (some 0)
        ⟨[], 0, []⟩).backend.collections "docs").map Collection.dim = some 384 ∧
    (findCol (create_collection ⟨384, 100⟩ "docs" (some 0) "Cosine"
        ⟨[], 0, []⟩).backend.collections "docs").map Collection.dim ≠ some 0) :=
  ⟨⟨by decide, by decide⟩, create_zero_dimension_coerced ⟨384, 100⟩ [] 0 "docs" "Cosine"
    (some 0) (by decide) (by decide)⟩


/-- Unfolding of `add_documents` when the collection is present. -/
lemma add_documents_existing (cfg : Config) (cols : List Collection) (nid : Nat)
    (name : String) (ts : List String) (ms : Option (List Meta))
    (h : containsName cols name = true) :
    add_documents cfg name ts ms ⟨cols, nid, []⟩ =
      ⟨.ok ((List.range ts.length).map (fun i => nid + i)),
        ⟨updPoints name (mkPoints nid ts ms) cols, nid + ts.length, []⟩,
        [.getCollections, .embed ts, .upsert name ts.length]⟩ := by
  simp [add_documents, collection_exists_spec, h, primAddTexts, takeFault]

/-- Unfolding of `add_documents` when the collection is absent: it is
created with the default dimension and distance first. -/
lemma add_documents_fresh (cfg : Config) (cols : List Collection) (nid : Nat)
    (name : String) (ts : List String) (ms : Option (List Meta))
    (h : containsName cols name = false) :
    add_documents cfg name ts ms ⟨cols, nid, []⟩ =
      ⟨.ok ((List.range ts.length).map (fun i => nid + i)),
        ⟨updPoints name (mkPoints nid ts ms)
            (cols ++ [⟨name, cfg.embedding_dimension, "Cosine", []⟩]),
          nid + ts.length, []⟩,
        [.getCollections, .getCollections,
          .createCollection name cfg.embedding_dimension "Cosine",
          .embed ts, .upsert name ts.length]⟩ := by
  rw [add_documents, collection_exists_spec]
  rw [show containsName cols name = false from h]
  rw [create_collection_fresh cfg cols nid name none "Cosine" h]
  simp [primAddTexts, takeFault, pyOrNat]

/-- C1 counterexample: on mismatched `texts`/`metadatas` lengths,
`add_documents` does not fail with an `InputError` before any network call:
its first issued call is the backend collection listing, and its outcome is
a successful id list rather than an `InputError`. -/
theorem add_documents_mismatch_not_input_error :
    (add_documents ⟨384, 100⟩ "c" ["a", "b"] (some [[("k", "1")]])
        ⟨[⟨"c", 3, "Cosine", []⟩], 0, []⟩).calls.head? = some .getCollections ∧
    isInputErr (add_documents ⟨384, 100⟩ "c" ["a", "b"] (some [[("k", "1")]])
        ⟨[⟨"c", 3, "Cosine", []⟩], 0, []⟩).out = false ∧
    (add_documents ⟨384, 100⟩ "c" ["a", "b"] (some [[("k", "1")]])
        ⟨[⟨"c", 3, "Cosine", []⟩], 0, []⟩).out = .ok [0, 1] := by
  refine ⟨by decide, by decide, by decide⟩

/-- C1 (amended): `add_documents` performs no length validation of `texts`
against `metadatas` and never raises an `InputError`; even on mismatched
lengths the first thing it does is the backend collection-listing network
call, and the call then proceeds normally. -/
theorem add_documents_no_length_validation (cfg : Config) (cols : List Collection)
    (nid : Nat) (name : String) (ts : List String) (ms : List Meta)
    (_hlen : ts.length ≠ ms.length) (hc : containsName cols name = true) :
    (add_documents cfg name ts (some ms) ⟨cols, nid, []⟩).calls.head? =
      some .getCollections ∧
    isInputErr (add_documents cfg name ts (some ms) ⟨cols, nid, []⟩).out = false ∧
    ∃ ids, (add_documents cfg name ts (some ms) ⟨cols, nid, []⟩).out = .ok ids := by
  rw [add_documents_existing cfg cols nid name ts (some ms) hc]
  exact ⟨rfl, rfl, _, rfl⟩

theorem add_documents_no_length_validation_witness :
    ((["a", "b"] : List String).length ≠ ([[("k", "1")]] : List Meta).length ∧
      containsName [⟨"c", 3, "Cosine", []⟩] "c" = true) ∧
    ((add_documents ⟨384, 100⟩ "c" ["a", "b"] (some [[("k", "1")]])
        ⟨[⟨"c", 3, "Cosine", []⟩], 0, []⟩).calls.head? = some .getCollections ∧
    isInputErr (add_documents ⟨384, 100⟩ "c" ["a", "b"] (some [[("k", "1")]])
        ⟨[⟨"c", 3, "Cosine", []⟩], 0, []⟩).out = false ∧
    ∃ ids, (add_documents ⟨384, 100⟩ "c" ["a", "b"] (some [[("k", "1")]])
        ⟨[⟨"c", 3, "Cosine", []⟩], 0, []⟩).out = .ok ids) :=
  ⟨⟨by decide, by decide⟩, add_documents_no_length_validation ⟨384, 100⟩
    [⟨"c", 3, "Cosine", []⟩] 0 "c" ["a", "b"] [[("k", "1")]] (by decide) (by decide)⟩

/-- `updPoints` changes no collection names. -/
lemma containsName_updPoints (name : String) (pts : List Point)
    (cols : List Collection) (n : String) :
    containsName (updPoints name pts cols) n = containsName cols n := by
  have hnames : (updPoints name pts cols).map Collection.name =
      cols.map Collection.name := by
    rw [updPoints, List.map_map]
    refine List.map_congr_left ?_
    intro c _
    show (if c.name == name then
      { c with points := c.points ++ pts } else c).name = c.name
    split <;> rfl
  rw [containsName, hnames, containsName]

/-- C6: `add_documents` on an absent collection creates it first with the
configured default dimension and the default Cosine distance, the create
call strictly preceding the embed and upsert calls, and the resulting
collection carries exactly those defaults. -/
theorem add_documents_implicit_create (cfg : Config) (cols : List Collection)
    (nid : Nat) (name : String) (ts : List String) (ms : Option (List Meta))
    (h : containsName cols name = false) :
    (add_documents cfg name ts ms ⟨cols, nid, []⟩).calls =
      [.getCollections, .getCollections,
        .createCollection name cfg.embedding_dimension "Cosine",
        .embed ts, .upsert name ts.length] ∧
    (findCol (add_documents cfg name ts ms ⟨cols, nid, []⟩).backend.collections
      name).map Collection.dim = some cfg.embedding_dimension ∧
    (findCol (add_documents cfg name ts ms ⟨cols, nid, []⟩).backend.collections
      name).map Collection.distance = some "Cosine" ∧
    (add_documents cfg name ts ms ⟨cols, nid, []⟩).out =
      .ok ((List.range ts.length).map (fun i => nid + i)) := by
  rw [add_documents_fresh cfg cols nid name ts ms h]
  refine ⟨rfl, ?_, ?_, rfl⟩ <;>
    · rw [show (updPoints name (mkPoints nid ts ms)
          (cols ++ [⟨name, cfg.embedding_dimension, "Cosine", []⟩])) =
          (updPoints name (mkPoints nid ts ms) cols ++
            [⟨name, cfg.embedding_dimension, "Cosine",
              [] ++ mkPoints nid ts ms⟩]) from by
          simp [updPoints]]
      rw [findCol_append_fresh _ ?_ rfl]
      · rfl
      · rw [containsName_updPoints]
        exact h


theorem add_documents_implicit_create_witness :
    containsName [] "docs" = false ∧
    ((add_documents ⟨384, 100⟩ "docs" ["a"] none ⟨[], 0, []⟩).calls =
      [.getCollections, .getCollections,
        .createCollection "docs" 384 "Cosine", .embed ["a"], .upsert "docs" 1] ∧
    (findCol (add_documents ⟨384, 100⟩ "docs" ["a"] none
        ⟨[], 0, []⟩).backend.collections "docs").map Collection.dim = some 384 ∧
    (findCol (add_documents ⟨384, 100⟩ "docs" ["a"] none
        ⟨[], 0, []⟩).backend.collections "docs").map Collection.distance =
      some "Cosine" ∧
    (add_documents ⟨384, 100⟩ "docs" ["a"] none ⟨[], 0, []⟩).out =
      .ok ((List.range (["a"] : List String).length).map (fun i => 0 + i))) :=
  ⟨by decide, add_documents_implicit_create ⟨384, 100⟩ [] 0 "docs" ["a"] none (by decide)⟩

/-- A found collection implies a positive membership test. -/
lemma containsName_of_findCol {cols : List Collection} {n : String} {c : Collection}
    (hf : findCol cols n = some c) : containsName cols n = true := by
  have hm := List.mem_of_find?_eq_some hf
  have hp := List.find?_some hf
  simp [containsName]
  exact ⟨c, hm, by simpa using hp⟩

/-- C7: on an existing collection, `similarity_search` returns exactly the
formatted backend matches: one `{text, metadata, score}` record per match,
in backend order with each score passed through unchanged, and when `k`
exceeds the number of stored points the list has exactly one entry per
stored point. -/
theorem similarity_search_formats_backend_matches (cols : List Collection)
    (nid : Nat) (name q : String) (k : Nat) (c : Collection)
    (hf : findCol cols name = some c) :
    (similarity_search name q k ⟨cols, nid, []⟩).out =
      .ok (format_results ((c.points.map (fun p => (p, matchScore q p))).take k)) ∧
    (format_results ((c.points.map (fun p => (p, matchScore q p))).take k)).length =
      min k c.points.length ∧
    (format_results ((c.points.map (fun p => (p, matchScore q p))).take k)).map
        SearchResult.score =
      ((c.points.map (fun p => (p, matchScore q p))).take k).map Prod.snd ∧
    (format_results ((c.points.map (fun p => (p, matchScore q p))).take k)).map
        SearchResult.text =
      ((c.points.map (fun p => (p, matchScore q p))).take k).map
        (fun m => m.1.text) := by
  have hc := containsName_of_findCol hf
  refine ⟨?_, ?_, ?_, ?_⟩
  · simp [similarity_search, collection_exists_spec, hc, primQuery, takeFault, hf]
  · simp [format_results]
  · simp only [format_results, List.map_map, List.map_take]
    rfl
  · simp only [format_results, List.map_map, List.map_take]
    rfl

theorem similarity_search_formats_backend_matches_witness :
    findCol [⟨"docs", 3, "Cosine",
        [⟨0, "cats", [("k", "1")]⟩, ⟨1, "stocks", []⟩]⟩] "docs" =
      some ⟨"docs", 3, "Cosine", [⟨0, "cats", [("k", "1")]⟩, ⟨1, "stocks", []⟩]⟩ ∧
    ((similarity_search "docs" "q" 5
        ⟨[⟨"docs", 3, "Cosine", [⟨0, "cats", [("k", "1")]⟩, ⟨1, "stocks", []⟩]⟩],
          0, []⟩).out =
      .ok (format_results
        ((([⟨0, "cats", [("k", "1")]⟩, ⟨1, "stocks", []⟩] : List Point).map
          (fun p => (p, matchScore "q" p))).take 5)) ∧
    (format_results ((([⟨0, "cats", [("k", "1")]⟩, ⟨1, "stocks", []⟩] : List Point).map
        (fun p => (p, matchScore "q" p))).take 5)).length =
      min 5 ([⟨0, "cats", [("k", "1")]⟩, ⟨1, "stocks", []⟩] : List Point).length ∧
    (format_results ((([⟨0, "cats", [("k", "1")]⟩, ⟨1, "stocks", []⟩] : List Point).map
        (fun p => (p, matchScore "q" p))).take 5)).map SearchResult.score =
      ((([⟨0, "cats", [("k", "1")]⟩, ⟨1, "stocks", []⟩] : List Point).map
        (fun p => (p, matchScore "q" p))).take 5).map Prod.snd ∧
    (format_results ((([⟨0, "cats", [("k", "1")]⟩, ⟨1, "stocks", []⟩] : List Point).map
        (fun p => (p, matchScore "q" p))).take 5)).map SearchResult.text =
      ((([⟨0, "cats", [("k", "1")]⟩, ⟨1, "stocks", []⟩] : List Point).map
        (fun p => (p, matchScore "q" p))).take 5).map (fun m => m.1.text)) :=
  ⟨by decide, similarity_search_formats_backend_matches
    [⟨"docs", 3, "Cosine", [⟨0, "cats", [("k", "1")]⟩, ⟨1, "stocks", []⟩]⟩] 0
    "docs" "q" 5 ⟨"docs", 3, "Cosine", [⟨0, "cats", [("k", "1")]⟩, ⟨1, "stocks", []⟩]⟩
    (by decide)⟩


/-- A fault scheduled on the very next backend call makes `collection_exists`
re-raise it after that single call. -/
lemma collection_exists_fault (name : String) (cols : List Collection) (nid : Nat)
    (e : PyError) (fs : List (Option PyError)) :
    collection_exists name ⟨cols, nid, some e :: fs⟩ =
      ⟨.error e, ⟨cols, nid, fs⟩, [.getCollections]⟩ := by
  simp [collection_exists, list_collections, primGetCollections, takeFault]

/-- A fault-free next backend call lets `collection_exists` answer from the
listing, consuming one schedule slot. -/
lemma collection_exists_nofault (name : String) (cols : List Collection) (nid : Nat)
    (fs : List (Option PyError)) :
    collection_exists name ⟨cols, nid, none :: fs⟩ =
      ⟨.ok (containsName cols name), ⟨cols, nid, fs⟩, [.getCollections]⟩ := by
  simp [collection_exists, list_collections, primGetCollections, takeFault, containsName]

/-- C9: for every core operation, a failure of the backend or the embedding
provider at any step that is not a soft-false path is re-raised unmodified to
the caller, with every network call up to the failing one attempted exactly
once and no retry: first-call failures for all seven operations, and
second/third-call failures for create, delete, describe, add and search. -/
theorem errors_propagate_unmodified (e : PyError) (cols : List Collection) (nid : Nat)
    (n1 n2 : String) (cfg : Config) (d : Option Nat) (dist : String)
    (ts : List String) (ms : Option (List Meta)) (q : String) (k : Nat)
    (h1 : containsName cols n1 = true) (h2 : containsName cols n2 = false) :
    list_collections ⟨cols, nid, [some e]⟩ =
      ⟨.error e, ⟨cols, nid, []⟩, [.getCollections]⟩ ∧
    collection_exists n1 ⟨cols, nid, [some e]⟩ =
      ⟨.error e, ⟨cols, nid, []⟩, [.getCollections]⟩ ∧
    create_collection cfg n2 d dist ⟨cols, nid, [some e]⟩ =
      ⟨.error e, ⟨cols, nid, []⟩, [.getCollections]⟩ ∧
    delete_collection n1 ⟨cols, nid, [some e]⟩ =
      ⟨.error e, ⟨cols, nid, []⟩, [.getCollections]⟩ ∧
    get_collection_info n1 ⟨cols, nid, [some e]⟩ =
      ⟨.error e, ⟨cols, nid, []⟩, [.getCollections]⟩ ∧
    add_documents cfg n1 ts ms ⟨cols, nid, [some e]⟩ =
      ⟨.error e, ⟨cols, nid, []⟩, [.getCollections]⟩ ∧
    similarity_search n1 q k ⟨cols, nid, [some e]⟩ =
      ⟨.error e, ⟨cols, nid, []⟩, [.getCollections]⟩ ∧
    create_collection cfg n2 d dist ⟨cols, nid, [none, some e]⟩ =
      ⟨.error e, ⟨cols, nid, []⟩,
        [.getCollections,
          .createCollection n2 (pyOrNat d cfg.embedding_dimension) dist]⟩ ∧
    delete_collection n1 ⟨cols, nid, [none, some e]⟩ =
      ⟨.error e, ⟨cols, nid, []⟩, [.getCollections, .deleteCollection n1]⟩ ∧
    get_collection_info n1 ⟨cols, nid, [none, some e]⟩ =
      ⟨.error e, ⟨cols, nid, []⟩, [.getCollections, .getCollection n1]⟩ ∧
    add_documents cfg n1 ts ms ⟨cols, nid, [none, some e]⟩ =
      ⟨.error e, ⟨cols, nid, []⟩, [.getCollections, .embed ts]⟩ ∧
    add_documents cfg n1 ts ms ⟨cols, nid, [none, none, some e]⟩ =
      ⟨.error e, ⟨cols, nid, []⟩,
        [.getCollections, .embed ts, .upsert n1 ts.length]⟩ ∧
    similarity_search n1 q k ⟨cols, nid, [none, some e]⟩ =
      ⟨.error e, ⟨cols, nid, []⟩, [.getCollections, .embed [q]]⟩ ∧
    similarity_search n1 q k ⟨cols, nid, [none, none, some e]⟩ =
      ⟨.error e, ⟨cols, nid, []⟩, [.getCollections, .embed [q], .query n1 k]⟩ := by
  refine ⟨?_, ?_, ?_, ?_, ?_, ?_, ?_, ?_, ?_, ?_, ?_, ?_, ?_, ?_⟩
  · simp [list_collections, primGetCollections, takeFault]
  · exact collection_exists_fault n1 cols nid e []
  · simp [create_collection, collection_exists_fault]
  · simp [delete_collection, collection_exists_fault]
  · simp [get_collection_info, collection_exists_fault]
  · simp [add_documents, collection_exists_fault]
  · simp [similarity_search, collection_exists_fault]
  · simp [create_collection, collection_exists_nofault, h2,
      primCreateCollection, takeFault]
  · simp [delete_collection, collection_exists_nofault, h1,
      primDeleteCollection, takeFault]
  · simp [get_collection_info, collection_exists_nofault, h1,
      primGetCollection, takeFault]
  · simp [add_documents, collection_exists_nofault, h1, primAddTexts, takeFault]
  · simp [add_documents, collection_exists_nofault, h1, primAddTexts, takeFault]
  · simp [similarity_search, collection_exists_nofault, h1, primQuery, takeFault]
  · simp [similarity_search, collection_exists_nofault, h1, primQuery, takeFault]

theorem errors_propagate_unmodified_witness :
    (containsName [⟨"a", 1, "Cosine", []⟩] "a" = true ∧
      containsName [⟨"a", 1, "Cosine", []⟩] "b" = false) ∧
    list_collections ⟨[⟨"a", 1, "Cosine", []⟩], 0, [some (.backendError 7)]⟩ =
      ⟨.error (.backendError 7), ⟨[⟨"a", 1, "Cosine", []⟩], 0, []⟩,
        [.getCollections]⟩ :=
  ⟨⟨by decide, by decide⟩,
    (errors_propagate_unmodified (.backendError 7) [⟨"a", 1, "Cosine", []⟩] 0 "a" "b"
      ⟨384, 100⟩ none "Cosine" ["t"] none "q" 5 (by decide) (by decide)).1⟩


/-- On a fault-free backend, `add_documents` always succeeds with one id per
text, issues exactly one embedding call carrying the given texts and one
upsert of the same size, and leaves a fault-free backend. -/
lemma add_documents_honest (cfg : Config) (name : String) (ts : List String)
    (ms : Option (List Meta)) (cols : List Collection) (nid : Nat) :
    ∃ cols2 calls2,
      add_documents cfg name ts ms ⟨cols, nid, []⟩ =
        ⟨.ok ((List.range ts.length).map (fun i => nid + i)),
          ⟨cols2, nid + ts.length, []⟩, calls2⟩ ∧
      embedPayloads calls2 = [ts] ∧ upsertSizes calls2 = [ts.length] := by
  by_cases h : containsName cols name = true
  · exact ⟨_, _, add_documents_existing cfg cols nid name ts ms h, rfl, rfl⟩
  · have h2 : containsName cols name = false := by simpa using h
    exact ⟨_, _, add_documents_fresh cfg cols nid name ts ms h2, rfl, rfl⟩

/-- `embedPayloads` distributes over trace concatenation. -/
lemma embedPayloads_append (a b : List NetCall) :
    embedPayloads (a ++ b) = embedPayloads a ++ embedPayloads b := by
  induction a with
  | nil => rfl
  | cons x xs ih => cases x <;> simp [embedPayloads, ih]

/-- `upsertSizes` distributes over trace concatenation. -/
lemma upsertSizes_append (a b : List NetCall) :
    upsertSizes (a ++ b) = upsertSizes a ++ upsertSizes b := by
  induction a with
  | nil => rfl
  | cons x xs ih => cases x <;> simp [upsertSizes, ih]

/-- Ceiling-division step: removing one full-or-final batch of size `B` from
`m` remaining items lowers the batch count by exactly one. -/
lemma ceil_div_step (m B : Nat) (hB : 0 < B) (hm : 0 < m) :
    (m + B - 1) / B = (m - B + B - 1) / B + 1 := by
  have h3 : m + B - 1 = (m - 1) + B := by omega
  rw [h3, Nat.add_div_right _ hB]
  rcases Nat.le_total m B with h | h
  · have h4 : m - B + B - 1 = B - 1 := by omega
    rw [h4]
    have h5 : (m - 1) / B = 0 := Nat.div_eq_of_lt (by omega)
    have h6 : (B - 1) / B = 0 := Nat.div_eq_of_lt (by omega)
    rw [h5, h6]
  · have h4 : m - B + B - 1 = m - 1 := by omega
    rw [h4]

/-- The terminated ingestion loop: nothing left to do. -/
lemma ingestLoop_done (cfg : Config) (name : String) (B : Nat)
    (texts : List String) (ms : Option (List Meta)) (i : Nat) (b : Backend)
    (hB : 0 < B) (hend : texts.length ≤ i) :
    ingestLoop cfg name B texts ms i b = ⟨.ok 0, b, []⟩ := by
  rw [ingestLoop.eq_def]
  simp [Nat.pos_iff_ne_zero.mp hB, hend]

/-- One iteration of the fault-free ingestion loop: one batch of at most `B`
texts is added (one embed, one upsert), then the loop continues at `i + B`
on the updated fault-free backend. -/
lemma ingestLoop_step (cfg : Config) (name : String) (B : Nat)
    (texts : List String) (ms : Option (List Meta)) (i : Nat)
    (cols : List Collection) (nid : Nat) (hB : 0 < B) (hlt : i < texts.length) :
    ∃ cols2 calls2,
      embedPayloads calls2 = [(texts.drop i).take B] ∧
      upsertSizes calls2 = [((texts.drop i).take B).length] ∧
      (ingestLoop cfg name B texts ms i ⟨cols, nid, []⟩).calls =
        calls2 ++ (ingestLoop cfg name B texts ms (i + B)
          ⟨cols2, nid + ((texts.drop i).take B).length, []⟩).calls ∧
      ((∃ n, (ingestLoop cfg name B texts ms (i + B)
          ⟨cols2, nid + ((texts.drop i).take B).length, []⟩).out = .ok n) →
        ∃ n, (ingestLoop cfg name B texts ms i ⟨cols, nid, []⟩).out = .ok n) := by
  have hz := Nat.pos_iff_ne_zero.mp hB
  have hend : ¬ texts.length ≤ i := by omega
  cases ms with
  | none =>
      obtain ⟨cols2, calls2, heq, hep, hus⟩ :=
        add_documents_honest cfg name ((texts.drop i).take B) none cols nid
      refine ⟨cols2, calls2, hep, by rw [hus], ?_, ?_⟩
      · rw [ingestLoop.eq_def]
        simp [hz, hend, heq]
      · rintro ⟨n, hn⟩
        rw [ingestLoop.eq_def]
        simp at hn
        simp [hz, hend, heq, hn]
  | some l =>
      by_cases he : l.isEmpty
      · obtain ⟨cols2, calls2, heq, hep, hus⟩ :=
          add_documents_honest cfg name ((texts.drop i).take B) none cols nid
        refine ⟨cols2, calls2, hep, by rw [hus], ?_, ?_⟩
        · rw [ingestLoop.eq_def]
          simp [hz, hend, he, heq]
        · rintro ⟨n, hn⟩
          rw [ingestLoop.eq_def]
          simp at hn
          simp [hz, hend, he, heq, hn]
      · obtain ⟨cols2, calls2, heq, hep, hus⟩ :=
          add_documents_honest cfg name ((texts.drop i).take B)
            (some ((l.drop i).take B)) cols nid
        refine ⟨cols2, calls2, hep, by rw [hus], ?_, ?_⟩
        · rw [ingestLoop.eq_def]
          simp [hz, hend, he, heq]
        · rintro ⟨n, hn⟩
          rw [ingestLoop.eq_def]
          simp at hn
          simp [hz, hend, he, heq, hn]



/-- Conclusions of the loop invariant at a terminal index. -/
lemma ingestLoop_spec_done (cfg : Config) (name : String) (B : Nat)
    (texts : List String) (ms : Option (List Meta)) (i : Nat)
    (cols : List Collection) (nid : Nat) (hB : 0 < B) (hend : texts.length ≤ i) :
    (∃ n, (ingestLoop cfg name B texts ms i ⟨cols, nid, []⟩).out = .ok n) ∧
    (embedPayloads (ingestLoop cfg name B texts ms i ⟨cols, nid, []⟩).calls).flatten =
      texts.drop i ∧
    (embedPayloads (ingestLoop cfg name B texts ms i ⟨cols, nid, []⟩).calls).length =
      ((texts.length - i) + B - 1) / B ∧
    upsertSizes (ingestLoop cfg name B texts ms i ⟨cols, nid, []⟩).calls =
      (embedPayloads (ingestLoop cfg name B texts ms i ⟨cols, nid, []⟩).calls).map
        List.length ∧
    ∀ p ∈ embedPayloads (ingestLoop cfg name B texts ms i ⟨cols, nid, []⟩).calls,
      p.length ≤ B := by
  rw [ingestLoop_done cfg name B texts ms i _ hB hend]
  have h0 : texts.length - i = 0 := by omega
  refine ⟨⟨0, rfl⟩, ?_, ?_, rfl, ?_⟩
  · simp [embedPayloads, List.drop_eq_nil_of_le hend]
  · rw [h0]
    simp [embedPayloads]
    exact (Nat.div_eq_of_lt (by omega)).symm
  · simp [embedPayloads]

/-- Invariant of the fault-free ingestion loop from index `i`: it succeeds,
its embed payloads joined in order are exactly the remaining texts, it
issues one embed per batch with matching upsert sizes, and every batch has
at most `B` texts. -/
lemma ingestLoop_spec (cfg : Config) (name : String) (B : Nat)
    (texts : List String) (ms : Option (List Meta)) (hB : 0 < B) :
    ∀ fuel i cols nid, texts.length - i ≤ fuel →
      (∃ n, (ingestLoop cfg name B texts ms i ⟨cols, nid, []⟩).out = .ok n) ∧
      (embedPayloads (ingestLoop cfg name B texts ms i ⟨cols, nid, []⟩).calls).flatten =
        texts.drop i ∧
      (embedPayloads (ingestLoop cfg name B texts ms i ⟨cols, nid, []⟩).calls).length =
        ((texts.length - i) + B - 1) / B ∧
      upsertSizes (ingestLoop cfg name B texts ms i ⟨cols, nid, []⟩).calls =
        (embedPayloads (ingestLoop cfg name B texts ms i ⟨cols, nid, []⟩).calls).map
          List.length ∧
      ∀ p ∈ embedPayloads (ingestLoop cfg name B texts ms i ⟨cols, nid, []⟩).calls,
        p.length ≤ B := by
  intro fuel
  induction fuel with
  | zero =>
      intro i cols nid hle
      exact ingestLoop_spec_done cfg name B texts ms i cols nid hB (by omega)
  | succ f ih =>
      intro i cols nid hle
      by_cases hend : texts.length ≤ i
      · exact ingestLoop_spec_done cfg name B texts ms i cols nid hB hend
      · have hlt : i < texts.length := by omega
        obtain ⟨cols2, calls2, hep, hus, hcalls, hout⟩ :=
          ingestLoop_step cfg name B texts ms i cols nid hB hlt
        obtain ⟨⟨n, hn⟩, hjoin, hlen, hsz, hbnd⟩ :=
          ih (i + B) cols2 (nid + ((texts.drop i).take B).length) (by omega)
        have hd : texts.drop (i + B) = (texts.drop i).drop B := by
          rw [List.drop_drop, Nat.add_comm]
        refine ⟨hout ⟨n, hn⟩, ?_, ?_, ?_, ?_⟩
        · rw [hcalls, embedPayloads_append, hep]
          simp only [List.singleton_append, List.flatten_cons]
          rw [hjoin, hd, List.take_append_drop]
        · rw [hcalls, embedPayloads_append, hep, List.length_append, hlen]
          have hm : texts.length - (i + B) = texts.length - i - B := by omega
          rw [hm, ceil_div_step (texts.length - i) B hB (by omega)]
          simp [Nat.add_comm]
        · rw [hcalls, upsertSizes_append, embedPayloads_append, hus, hep, hsz]
          simp
        · rw [hcalls, embedPayloads_append, hep]
          intro p hp
          simp only [List.singleton_append, List.mem_cons] at hp
          rcases hp with rfl | hp
          · rw [List.length_take]
            exact min_le_left _ _
          · exact hbnd p hp

/-- C2: through the CLI ingestion path with configured batch size `B`,
ingesting `N` texts issues exactly `ceil(N/B)` embedding calls and
`ceil(N/B)` upsert calls, each covering at most `B` items, the upsert sizes
matching the embed payloads, and the embed payloads concatenated in order
are exactly the input texts (each item covered exactly once, in order). -/
theorem ingestion_batching (cfg : Config) (name : String) (texts : List String)
    (ms : Option (List Meta)) (cols : List Collection) (nid : Nat)
    (hB : 0 < cfg.batch_size) :
    (∃ n, (add_documents_cmd cfg name none texts ms ⟨cols, nid, []⟩).out = .ok n) ∧
    (embedPayloads
        (add_documents_cmd cfg name none texts ms ⟨cols, nid, []⟩).calls).length =
      (texts.length + cfg.batch_size - 1) / cfg.batch_size ∧
    (upsertSizes
        (add_documents_cmd cfg name none texts ms ⟨cols, nid, []⟩).calls).length =
      (texts.length + cfg.batch_size - 1) / cfg.batch_size ∧
    (embedPayloads
        (add_documents_cmd cfg name none texts ms ⟨cols, nid, []⟩).calls).flatten =
      texts ∧
    upsertSizes (add_documents_cmd cfg name none texts ms ⟨cols, nid, []⟩).calls =
      (embedPayloads
        (add_documents_cmd cfg name none texts ms ⟨cols, nid, []⟩).calls).map
        List.length ∧
    ∀ p ∈ embedPayloads
        (add_documents_cmd cfg name none texts ms ⟨cols, nid, []⟩).calls,
      p.length ≤ cfg.batch_size := by
  obtain ⟨h1, h2, h3, h4, h5⟩ :=
    ingestLoop_spec cfg name cfg.batch_size texts ms hB texts.length 0 cols nid
      (by omega)
  simp only [List.drop_zero, Nat.sub_zero] at h1 h2 h3 h4 h5
  have hcmd : add_documents_cmd cfg name none texts ms ⟨cols, nid, []⟩ =
      ingestLoop cfg name cfg.batch_size texts ms 0 ⟨cols, nid, []⟩ := by
    rw [add_documents_cmd, pyOrNat]
  rw [hcmd]
  exact ⟨h1, h3, by rw [h4, List.length_map]; exact h3, h2, h4, h5⟩

theorem ingestion_batching_witness :
    0 < (2 : Nat) ∧
    ((∃ n, (add_documents_cmd ⟨384, 2⟩ "docs" none ["a", "b", "c"] none
        ⟨[], 0, []⟩).out = .ok n) ∧
    (embedPayloads (add_documents_cmd ⟨384, 2⟩ "docs" none ["a", "b", "c"] none
        ⟨[], 0, []⟩).calls).length = ((["a", "b", "c"] : List String).length + 2 - 1) / 2 ∧
    (upsertSizes (add_documents_cmd ⟨384, 2⟩ "docs" none ["a", "b", "c"] none
        ⟨[], 0, []⟩).calls).length = ((["a", "b", "c"] : List String).length + 2 - 1) / 2 ∧
    (embedPayloads (add_documents_cmd ⟨384, 2⟩ "docs" none ["a", "b", "c"] none
        ⟨[], 0, []⟩).calls).flatten = ["a", "b", "c"] ∧
    upsertSizes (add_documents_cmd ⟨384, 2⟩ "docs" none ["a", "b", "c"] none
        ⟨[], 0, []⟩).calls =
      (embedPayloads (add_documents_cmd ⟨384, 2⟩ "docs" none ["a", "b", "c"] none
        ⟨[], 0, []⟩).calls).map List.length ∧
    ∀ p ∈ embedPayloads (add_documents_cmd ⟨384, 2⟩ "docs" none ["a", "b", "c"] none
        ⟨[], 0, []⟩).calls, p.length ≤ 2) :=
  ⟨by decide, ingestion_batching ⟨384, 2⟩ "docs" ["a", "b", "c"] none [] 0 (by decide)⟩

end QdrantAgent
